import Mathlib

/-!
Shallow embedding of `src/system/smbios.c` (SMBIOS locate / validate / parse
pipeline) and verification of its specification claims.

Physical memory is modelled as a function `Nat → Nat` giving the byte at each
address; every read is reduced modulo 256. Machine pointers are `Nat`
addresses. The external `map_region` capability and the bootloader-supplied
EFI information are fields of an environment record. Loops whose C originals
are not bounded by any count (the double-NUL terminator scans) take an
explicit fuel argument and return `none` when the fuel runs out, so that
non-termination within any bound is observable.
-/

namespace Smbios

/-- EFI GUID, as laid out in `efi_guid_t`: one 32-bit word, two 16-bit words
and eight bytes. `memcmp == 0` on two in-range GUIDs is structural equality. -/
structure EfiGuid where
  data1 : Nat
  data2 : Nat
  data3 : Nat
  data4 : List Nat
deriving DecidableEq, Repr

/-- `SMBIOS2_GUID` from smbios.c line 15. -/
def SMBIOS2_GUID : EfiGuid :=
  ⟨0xeb9d2d31, 0x2d88, 0x11d3, [0x9a, 0x16, 0x00, 0x90, 0x27, 0x3f, 0xc1, 0x4d]⟩

/-- One entry of an EFI configuration-table array: a GUID and a table address
(`efi32_config_table_t` / `efi64_config_table_t`). -/
structure EfiConfigTable where
  guid : EfiGuid
  table : Nat
deriving DecidableEq, Repr

/-- The two fields of an EFI system table that the code reads:
`config_tables` (address of the configuration-table array) and
`num_config_tables`. -/
structure EfiSystemTable where
  config_tables : Nat
  num_config_tables : Nat
deriving DecidableEq, Repr

/-- Modelled from the spec: the 32-bit EFI loader signature constant from the
missing `bootparams.h` header ("an EFI loader signature (one of: none /
32-bit / 64-bit)"); only its distinctness from the 64-bit signature and from
other values matters. -/
def EFI32_LOADER_SIGNATURE : Nat := 0x32334c45

/-- Modelled from the spec: the 64-bit EFI loader signature constant from the
missing `bootparams.h` header. -/
def EFI64_LOADER_SIGNATURE : Nat := 0x34364c45

/-- The environment a call runs in: the bootloader-supplied EFI information
(`boot_params->efi_info`), the external `map_region` capability (returning 0
on failure), physical memory as a byte function, and the typed overlays and
layout sizes for the EFI tables whose headers are not part of the source
(`efi.h`): `readSysTab32 a` is the `efi32_system_table_t` read at mapped
address `a`, `readCfg32 base i` is `config_tables[i]` at mapped base `base`,
and similarly for the 64-bit layouts. -/
structure Env where
  loader_signature : Nat
  sys_tab : Nat
  sys_tab_hi : Nat
  map_region : Nat → Nat → Bool → Nat
  mem : Nat → Nat
  readSysTab32 : Nat → EfiSystemTable
  readSysTab64 : Nat → EfiSystemTable
  readCfg32 : Nat → Nat → EfiConfigTable
  readCfg64 : Nat → Nat → EfiConfigTable
  sizeof_sys32 : Nat
  sizeof_sys64 : Nat
  sizeof_cfg32 : Nat
  sizeof_cfg64 : Nat

/-- The configuration-table scan shared by `find_smbios_in_efi32_system_table`
and `find_smbios_in_efi64_system_table` (smbios.c lines 79-83 / 93-97):
`table_addr` starts at 0 and is overwritten by every entry whose GUID equals
`SMBIOS2_GUID` (last match wins, no early exit). -/
def scan_config_tables (readCfg : Nat → Nat → EfiConfigTable) (base : Nat) :
    Nat → Nat → Nat → Nat
  | acc, _, 0 => acc
  | acc, i, k + 1 =>
      scan_config_tables readCfg base
        (if (readCfg base i).guid = SMBIOS2_GUID then (readCfg base i).table else acc)
        (i + 1) k

/-- `find_smbios_in_efi32_system_table` (smbios.c lines 88-99): map the
configuration-table array (`num * sizeof` bytes); on mapping failure return
NULL (0), otherwise scan it for the SMBIOS2 GUID. -/
def find_smbios_in_efi32_system_table (env : Env) (st : EfiSystemTable) : Nat :=
  let config_tables := env.map_region st.config_tables (st.num_config_tables * env.sizeof_cfg32) true
  if config_tables = 0 then 0
  else scan_config_tables env.readCfg32 config_tables 0 0 st.num_config_tables

/-- `find_smbios_in_efi64_system_table` (smbios.c lines 74-85), the 64-bit
counterpart. -/
def find_smbios_in_efi64_system_table (env : Env) (st : EfiSystemTable) : Nat :=
  let config_tables := env.map_region st.config_tables (st.num_config_tables * env.sizeof_cfg64) true
  if config_tables = 0 then 0
  else scan_config_tables env.readCfg64 config_tables 0 0 st.num_config_tables

/-- The anchor test of the legacy BIOS scan (smbios.c line 137):
`*dmi == '_' && *(dmi+1) == 'S' && *(dmi+2) == 'M' && *(dmi+3) == '_'`. -/
def isAnchor (mem : Nat → Nat) (a : Nat) : Bool :=
  (mem a % 256 == 0x5f) && (mem (a + 1) % 256 == 0x53) &&
  (mem (a + 2) % 256 == 0x4d) && (mem (a + 3) % 256 == 0x5f)

/-- The legacy BIOS scan loop (smbios.c lines 136-139): from address `a`,
`k` iterations stepping 16 bytes, returning the first address whose four
bytes match `"_SM_"`, or 0 when the iteration count is exhausted. -/
def bios_scan_from (mem : Nat → Nat) : Nat → Nat → Nat
  | _, 0 => 0
  | a, k + 1 => if isAnchor mem a then a else bios_scan_from mem (a + 16) k

/-- The legacy BIOS scan as written: `dmi_search_start = 0xF0000` and the loop
runs while `dmi < dmi_search_start + 0xffff0` stepping 16, which is exactly
`0xffff0 / 16 = 0xffff` iterations (addresses `0xF0000 + 16*k` for
`k < 0xffff`). -/
def bios_scan (mem : Nat → Nat) : Nat :=
  bios_scan_from mem 0xf0000 0xffff

/-- `find_smbios_adr` (smbios.c lines 101-143) for an `__x86_64__` build.
`rp` starts NULL and every assignment to it is immediately followed by a
`return`, so the `rp == NULL` guards on the EFI64 branch and the BIOS branch
are always true when reached; a failed system-table mapping falls out of its
EFI block without returning and reaches the BIOS scan. -/
def find_smbios_adr (env : Env) : Nat :=
  let efi32 : Option Nat :=
    if env.loader_signature = EFI32_LOADER_SIGNATURE then
      let system_table_addr := env.map_region env.sys_tab env.sizeof_sys32 true
      let system_table_addr := env.map_region system_table_addr env.sizeof_sys32 true
      if system_table_addr ≠ 0 then
        some (find_smbios_in_efi32_system_table env (env.readSysTab32 system_table_addr))
      else none
    else none
  match efi32 with
  | some r => r
  | none =>
    let efi64 : Option Nat :=
      if env.loader_signature = EFI64_LOADER_SIGNATURE then
        let system_table_addr := env.sys_tab_hi * 2 ^ 32 + env.sys_tab
        let system_table_addr := env.map_region system_table_addr env.sizeof_sys64 true
        if system_table_addr ≠ 0 then
          some (find_smbios_in_efi64_system_table env (env.readSysTab64 system_table_addr))
        else none
      else none
    match efi64 with
    | some r => r
    | none => bios_scan env.mem

/-- The do-while loop of `get_tstruct_string` (smbios.c lines 63-69), with
explicit fuel. Body: if the current byte is NUL, decrement `n`; if `n` is zero
and the current byte is non-NUL, return the current address; advance; the loop
exits (returning NULL, here `some none`) when the byte just advanced to and
the byte before it are both NUL. `none` means the fuel ran out before the loop
finished. -/
def gts_loop (mem : Nat → Nat) : Nat → Int → Nat → Option (Option Nat)
  | _, _, 0 => none
  | a, n, fuel + 1 =>
      let n2 := if mem a % 256 = 0 then n - 1 else n
      if n2 = 0 ∧ mem a % 256 ≠ 0 then some (some a)
      else if mem (a + 1) % 256 = 0 ∧ mem a % 256 = 0 then some none
      else gts_loop mem (a + 1) n2 fuel

/-- `get_tstruct_string` (smbios.c lines 58-71): return NULL for `n < 1`,
otherwise start scanning at `header + header->length` (the `length` field is
the byte at offset 1 of the packed `tstruct_header`) with counter `n - 1`.
`some (some a)` is a returned string pointer, `some none` is a returned NULL,
`none` means the scan ran longer than the given fuel. -/
def get_tstruct_string (mem : Nat → Nat) (header : Nat) (n : Int) (fuel : Nat) :
    Option (Option Nat) :=
  if n < 1 then some none
  else gts_loop mem (header + mem (header + 1) % 256) (n - 1) fuel

/-- The inner terminator scan of the structure walk (smbios.c lines 191-193):
advance until the current byte and the next byte are both NUL, returning the
address of the first NUL of that pair; `none` when the fuel runs out. -/
def scanDoubleNul (mem : Nat → Nat) : Nat → Nat → Option Nat
  | _, 0 => none
  | a, fuel + 1 =>
      if mem a % 256 = 0 ∧ mem (a + 1) % 256 = 0 then some a
      else scanDoubleNul mem (a + 1) fuel

/-- The structure-walk loop of `smbios_init` (smbios.c lines 182-200),
instrumented with the list of table-area byte addresses it reads. One
iteration: read the header's type byte (offset 0) and length byte (offset 1);
if the type is 2, overwrite the result pointer `si` with the current position;
advance past `length` bytes; scan for the double-NUL terminator and advance 2
past it; increment the processed-count and return -1 when it exceeds `ns`
(`eps->numstructs`). The loop exits normally (result 0) when the position
reaches `tblEnd`. `rem` is a structural recursion bound kept equal to
`ns + 1 - count` by the wrapper `walk`; the guard makes the 0 case
unreachable. `none` propagates terminator-scan fuel exhaustion. -/
def walkAux (mem : Nat → Nat) (tblEnd ns nulFuel : Nat) :
    Nat → Nat → Option Nat → Nat → Option (Int × Option Nat × List Nat)
  | 0, _, _, _ => none
  | rem + 1, dmi, si, count =>
      if dmi < tblEnd then
        let si2 := if mem dmi % 256 = 2 then some dmi else si
        let a := dmi + mem (dmi + 1) % 256
        match scanDoubleNul mem a nulFuel with
        | none => none
        | some p =>
          let rds := dmi :: (dmi + 1) :: (List.range (p + 2 - a)).map (a + ·)
          if count + 1 > ns then some (-1, si2, rds)
          else
            match walkAux mem tblEnd ns nulFuel rem (p + 2) si2 (count + 1) with
            | none => none
            | some (r, sf, rest) => some (r, sf, rds ++ rest)
      else some (0, si, [])

/-- The structure walk entered with processed-count `count` (smbios.c enters
it with `tstruct_count = 0`). -/
def walk (mem : Nat → Nat) (tblEnd ns nulFuel dmi : Nat) (si : Option Nat)
    (count : Nat) : Option (Int × Option Nat × List Nat) :=
  walkAux mem tblEnd ns nulFuel (ns + 1 - count) dmi si count

/-- The checksum loop of `smbios_init` (smbios.c lines 163-167) as a tail
recursion over the number of bytes summed: an `int8_t` accumulator is zero
exactly when the byte sum modulo 256 is zero, so the accumulator is kept
reduced modulo 256. -/
def checksum_loop (mem : Nat → Nat) : Nat → Nat → Nat → Nat
  | acc, _, 0 => acc
  | acc, a, k + 1 => checksum_loop mem ((acc + mem a % 256) % 256) (a + 1) k

/-- The checksum accumulated by the loop `for (; dmi < dmi_start + eps->length;
dmi++)`: it sums the bytes from the loop variable's initial value `dmi0`
(which the C code never initializes) up to `stop = dmi_start + eps->length`;
when `dmi0 ≥ stop` the loop body never runs. -/
def checksum (mem : Nat → Nat) (dmi0 stop : Nat) : Nat :=
  checksum_loop mem 0 dmi0 (stop - dmi0)

/-- The `length` field of the entry-point structure `smbios_t` at address
`adr`: byte offset 5 (after `anchor[4]` and `checksum`). -/
def eps_length (mem : Nat → Nat) (adr : Nat) : Nat := mem (adr + 5) % 256

/-- The `majorversion` field of `smbios_t`: byte offset 6. -/
def eps_major (mem : Nat → Nat) (adr : Nat) : Nat := mem (adr + 6) % 256

/-- The `minorversion` field of `smbios_t`: byte offset 7. -/
def eps_minor (mem : Nat → Nat) (adr : Nat) : Nat := mem (adr + 7) % 256

/-- The `tablelength` field of `smbios_t`: little-endian 16-bit at byte
offset 22. -/
def eps_tablelength (mem : Nat → Nat) (adr : Nat) : Nat :=
  mem (adr + 22) % 256 + 256 * (mem (adr + 23) % 256)

/-- The `tableaddress` field of `smbios_t`: little-endian 32-bit at byte
offset 24. -/
def eps_tableaddress (mem : Nat → Nat) (adr : Nat) : Nat :=
  mem (adr + 24) % 256 + 256 * (mem (adr + 25) % 256) +
    65536 * (mem (adr + 26) % 256) + 16777216 * (mem (adr + 27) % 256)

/-- The `numstructs` field of `smbios_t`: little-endian 16-bit at byte
offset 28. -/
def eps_numstructs (mem : Nat → Nat) (adr : Nat) : Nat :=
  mem (adr + 28) % 256 + 256 * (mem (adr + 29) % 256)

/-- `smbios_init` (smbios.c lines 145-203). `dmi0` is the value the
uninitialized local `dmi` happens to hold when the checksum loop starts
(the C code declares `dmi` but never assigns it before `for (; dmi < ...)`),
`si0` is the value of the global `dmi_system_info` on entry, and the result
pairs the returned status with the final value of `dmi_system_info`.
Stages: fail (-1) when the locator returns 0; fail when the checksum
accumulator is non-zero; fail when `majorversion < 2 && minorversion < 3`;
otherwise walk the structure table at `tableaddress`. -/
def smbios_init (env : Env) (dmi0 nulFuel : Nat) (si0 : Option Nat) :
    Option (Int × Option Nat) :=
  let smb_adr := find_smbios_adr env
  if smb_adr = 0 then some (-1, si0)
  else if checksum env.mem dmi0 (smb_adr + eps_length env.mem smb_adr) ≠ 0 then
    some (-1, si0)
  else if eps_major env.mem smb_adr < 2 ∧ eps_minor env.mem smb_adr < 3 then
    some (-1, si0)
  else
    let ts := eps_tableaddress env.mem smb_adr
    (walk env.mem (ts + eps_tablelength env.mem smb_adr)
        (eps_numstructs env.mem smb_adr) nulFuel ts si0 0).map
      (fun t => (t.1, t.2.1))

/-! ### Layout of a structure table as the walk traverses it -/

/-- `StructChain mem tblEnd nulFuel dmi ps` says that `ps` is the exact list
of structure start positions the walk visits from position `dmi`: each visited
position is below `tblEnd`, and the successor of a visited position `p` is 2
past the double-NUL terminator that follows its `length`-byte fixed portion
(found within `nulFuel` bytes). -/
inductive StructChain (mem : Nat → Nat) (tblEnd nulFuel : Nat) : Nat → List Nat → Prop
  | done (p : Nat) : ¬ p < tblEnd → StructChain mem tblEnd nulFuel p []
  | step (p q : Nat) (ps : List Nat) :
      p < tblEnd →
      scanDoubleNul mem (p + mem (p + 1) % 256) nulFuel = some q →
      StructChain mem tblEnd nulFuel (q + 2) ps →
      StructChain mem tblEnd nulFuel p (p :: ps)

/-- The last element of a list, or a default when the list is empty. -/
def lastOf : List Nat → Option Nat → Option Nat
  | [], si => si
  | x :: xs, _ => lastOf xs (some x)

lemma lastOf_filter_cons (mem : Nat → Nat) (p : Nat) (ps : List Nat) (si : Option Nat) :
    lastOf ((p :: ps).filter fun x => mem x % 256 == 2) si =
      lastOf (ps.filter fun x => mem x % 256 == 2)
        (if mem p % 256 = 2 then some p else si) := by
  by_cases h : mem p % 256 = 2 <;> simp [List.filter_cons, h, lastOf]

/-- A walk along a fully visited chain whose length stays within the declared
structure count exits normally (status 0) and leaves the result pointer at the
last type-2 position of the chain (or unchanged when there is none). -/
lemma walkAux_chain (mem : Nat → Nat) (tblEnd ns nulFuel : Nat) :
    ∀ (dmi : Nat) (ps : List Nat), StructChain mem tblEnd nulFuel dmi ps →
    ∀ (si : Option Nat) (count rem : Nat),
      count + ps.length ≤ ns → ps.length + 1 ≤ rem →
    ∃ rds, walkAux mem tblEnd ns nulFuel rem dmi si count =
      some (0, lastOf (ps.filter fun p => mem p % 256 == 2) si, rds) := by
  intro dmi ps h
  induction h with
  | done p hp =>
      intro si count rem _ hr
      obtain ⟨rem, rfl⟩ : ∃ r, rem = r + 1 := ⟨rem - 1, by omega⟩
      exact ⟨[], by simp [walkAux, hp, lastOf]⟩
  | step p q ps hp hscan hch ih =>
      intro si count rem hc hr
      obtain ⟨rem, rfl⟩ : ∃ r, rem = r + 1 := ⟨rem - 1, by omega⟩
      have hg : ¬ (count + 1 > ns) := by
        simp only [List.length_cons] at hc; omega
      obtain ⟨rds, hrec⟩ := ih (if mem p % 256 = 2 then some p else si) (count + 1) rem
        (by simp only [List.length_cons] at hc; omega)
        (by simp only [List.length_cons] at hr; omega)
      simp only [walkAux, if_pos hp, hscan, if_neg hg, hrec, lastOf_filter_cons]
      exact ⟨_, rfl⟩

/-- The walk of a fully visited chain within the declared count, as entered by
`smbios_init` (count 0). -/
lemma walk_chain (mem : Nat → Nat) (tblEnd ns nulFuel tblStart : Nat) (ps : List Nat)
    (h : StructChain mem tblEnd nulFuel tblStart ps) (hlen : ps.length ≤ ns)
    (si0 : Option Nat) :
    ∃ rds, walk mem tblEnd ns nulFuel tblStart si0 0 =
      some (0, lastOf (ps.filter fun p => mem p % 256 == 2) si0, rds) :=
  walkAux_chain mem tblEnd ns nulFuel tblStart ps h si0 0 (ns + 1 - 0) (by omega)
    (by simp [walk]; omega)

/-- When more chained structures lie below `tblEnd` than the remaining
allowance of the declared count, the walk hits the processed-count guard and
returns -1. -/
lemma walkAux_abort (mem : Nat → Nat) (tblEnd ns nulFuel : Nat) :
    ∀ (dmi : Nat) (ps : List Nat), StructChain mem tblEnd nulFuel dmi ps →
    ∀ (si : Option Nat) (count rem : Nat),
      count + ps.length > ns → count ≤ ns → ns + 1 - count ≤ rem →
    ∃ si2 rds, walkAux mem tblEnd ns nulFuel rem dmi si count = some (-1, si2, rds) := by
  intro dmi ps h
  induction h with
  | done p hp =>
      intro si count rem hc hcnt _
      simp only [List.length_nil] at hc; omega
  | step p q ps hp hscan hch ih =>
      intro si count rem hc hcnt hr
      obtain ⟨rem, rfl⟩ : ∃ r, rem = r + 1 := ⟨rem - 1, by omega⟩
      by_cases hg : count + 1 > ns
      · simp only [walkAux, if_pos hp, hscan, if_pos hg]
        exact ⟨_, _, rfl⟩
      · obtain ⟨si2, rds, hrec⟩ := ih (if mem p % 256 = 2 then some p else si) (count + 1) rem
          (by simp only [List.length_cons] at hc; omega) (by omega) (by omega)
        simp only [walkAux, if_pos hp, hscan, if_neg hg, hrec]
        exact ⟨_, _, rfl⟩

/-- C5: for every structure table (a fully visited chain `ps` of structure
positions, within the declared count), the walker leaves the result pointer at
the last position whose type byte is 2 — so a table with exactly one type-2
structure yields exactly that structure, and with several the last one in
table order wins (no early exit). When no type-2 structure exists the pointer
keeps its initial value. -/
theorem smbios_walk_last_match (mem : Nat → Nat) (tblEnd ns nulFuel tblStart : Nat)
    (ps : List Nat) (h : StructChain mem tblEnd nulFuel tblStart ps)
    (hlen : ps.length ≤ ns) (si0 : Option Nat) :
    ∃ rds, walk mem tblEnd ns nulFuel tblStart si0 0 =
      some (0, lastOf (ps.filter fun p => mem p % 256 == 2) si0, rds) :=
  walk_chain mem tblEnd ns nulFuel tblStart ps h hlen si0

/-- The concrete table used to exercise the walker claims: two structures at
0x2000 and 0x2006, both of type 2, each with a 4-byte fixed portion and an
empty string area. -/
def memW5 : Nat → Nat := fun a =>
  if a = 0x2000 then 2 else if a = 0x2001 then 4
  else if a = 0x2006 then 2 else if a = 0x2007 then 4 else 0

lemma memW5_chain : StructChain memW5 0x200c 5 0x2000 [0x2000, 0x2006] := by
  refine .step _ 0x2004 _ (by decide) (by decide) ?_
  refine .step _ 0x200a _ (by decide) (by decide) ?_
  exact .done _ (by decide)

/-- Witness for C5: on the concrete two-structure table both structures have
type 2 and the walker reports the second (last) one, at 0x2006. -/
theorem smbios_walk_last_match_witness :
    ∃ rds, walk memW5 0x200c 2 5 0x2000 none 0 = some (0, some 0x2006, rds) := by
  have h := smbios_walk_last_match memW5 0x200c 2 5 0x2000 [0x2000, 0x2006]
    memW5_chain (by decide) none
  have e : lastOf (List.filter (fun p => memW5 p % 256 == 2) [0x2000, 0x2006]) none =
      some 0x2006 := by decide
  rw [e] at h
  exact h

/-- C6 (amended part): a table with more structures below
`tableaddress + tablelength` than the declared `numstructs` makes the walk
return the error sentinel -1 once the processed-count exceeds the declared
count. -/
theorem smbios_walk_count_guard_abort (mem : Nat → Nat) (tblEnd ns nulFuel tblStart : Nat)
    (ps : List Nat) (h : StructChain mem tblEnd nulFuel tblStart ps)
    (hlen : ps.length > ns) (si0 : Option Nat) :
    ∃ si2 rds, walk mem tblEnd ns nulFuel tblStart si0 0 = some (-1, si2, rds) :=
  walkAux_abort mem tblEnd ns nulFuel tblStart ps h si0 0 (ns + 1 - 0)
    (by omega) (by omega) (by simp [walk])

/-- A copy of the two-structure table for the count-guard witness. -/
def memW6 : Nat → Nat := fun a =>
  if a = 0x2000 then 2 else if a = 0x2001 then 4
  else if a = 0x2006 then 2 else if a = 0x2007 then 4 else 0

lemma memW6_chain : StructChain memW6 0x200c 5 0x2000 [0x2000, 0x2006] := by
  refine .step _ 0x2004 _ (by decide) (by decide) ?_
  refine .step _ 0x200a _ (by decide) (by decide) ?_
  exact .done _ (by decide)

/-- Witness for C6: the two-structure table walked with a declared count of 1
aborts with -1. -/
theorem smbios_walk_count_guard_abort_witness :
    ∃ si2 rds, walk memW6 0x200c 1 5 0x2000 none 0 = some (-1, si2, rds) :=
  smbios_walk_count_guard_abort memW6 0x200c 1 5 0x2000 [0x2000, 0x2006]
    memW6_chain (by decide) none

/-- Skipping a run of positions at which no double-NUL pair starts. -/
lemma scanDoubleNul_skip (mem : Nat → Nat) :
    ∀ (k : Nat), ∀ (a fuel : Nat),
      (∀ j, j < k → ¬(mem (a + j) % 256 = 0 ∧ mem (a + j + 1) % 256 = 0)) →
      scanDoubleNul mem a (k + fuel) = scanDoubleNul mem (a + k) fuel := by
  intro k
  induction k with
  | zero => intro a fuel _; norm_num
  | succ k ih =>
      intro a fuel hno
      have h0 : ¬(mem a % 256 = 0 ∧ mem (a + 1) % 256 = 0) := by
        have := hno 0 (by omega)
        simpa using this
      have hstep : k + 1 + fuel = (k + fuel) + 1 := by omega
      rw [hstep]
      simp only [scanDoubleNul, if_neg h0]
      have := ih (a + 1) fuel (by
        intro j hj
        have := hno (j + 1) (by omega)
        have he : a + 1 + j = a + (j + 1) := by omega
        rw [he]
        simpa using this)
      rw [this]
      congr 1
      omega

/-- The table family refuting the bounded-slack part of C6: a single structure
of fixed length 4 at address 0, whose string area is a run of 1-bytes that
only terminates (double NUL) at address `B + 10`, far past the table end 4. -/
def memC6 (B : Nat) : Nat → Nat := fun a => if a < B + 10 then 1 else 0

/-- For every proposed slack `B` there is a table (`memC6 B`, table end 4,
declared count 0) on which the walk does abort with -1, yet has read the byte
at address `B + 10 > 4 + B` — the terminator scan is not bounded by
`tableaddress + tablelength` plus any fixed slack. -/
lemma walk_reads_beyond_any_slack :
    ∀ B : Nat, ∃ rds, walk (memC6 B) 4 0 (B + 20) 0 none 0 = some (-1, none, rds) ∧
      ∃ r, r ∈ rds ∧ 4 + B < r := by
  intro B
  have hm : ∀ x, x < B + 10 → memC6 B x = 1 := by
    intro x hx; simp [memC6, hx]
  have hm0 : ∀ x, B + 10 ≤ x → memC6 B x = 0 := by
    intro x hx; simp [memC6]; omega
  have hscan : scanDoubleNul (memC6 B) 1 (B + 20) = some (B + 10) := by
    have hsplit : B + 20 = (B + 9) + 11 := by omega
    rw [hsplit, scanDoubleNul_skip (memC6 B) (B + 9) 1 11 ?lo]
    case lo =>
      intro j hj
      have h1 : memC6 B (1 + j) = 1 := hm _ (by omega)
      simp [h1]
    have he : 1 + (B + 9) = B + 10 := by omega
    rw [he]
    have hz0 : memC6 B (B + 10) = 0 := hm0 _ (by omega)
    have hz1 : memC6 B (B + 10 + 1) = 0 := hm0 _ (by omega)
    simp [scanDoubleNul, hz0, hz1]
  have h0 : memC6 B 0 = 1 := hm 0 (by omega)
  have h1 : memC6 B 1 = 1 := hm 1 (by omega)
  have hwalk : walk (memC6 B) 4 0 (B + 20) 0 none 0 =
      some (-1, none, 0 :: 1 :: (List.range (B + 11)).map (1 + ·)) := by
    unfold walk
    norm_num
    simp only [walkAux, h0, h1]
    norm_num [hscan]
  refine ⟨_, hwalk, B + 10, ?_, by omega⟩
  refine List.mem_cons_of_mem _ (List.mem_cons_of_mem _ ?_)
  refine List.mem_map.mpr ⟨B + 9, List.mem_range.mpr (by omega), by omega⟩

/-- Counterexample to C6: the walk of the 4-byte table of `memC6 1000`
(declared count 0) aborts with -1, yet has read the byte at address
1010 — a full 1006 bytes past `tableaddress + tablelength = 4` and beyond the
proposed slack of 1000; `walk_reads_beyond_any_slack` extends this to every
slack. -/
theorem smbios_walk_unbounded_reads_counterexample :
    ∃ rds, walk (memC6 1000) 4 0 1020 0 none 0 = some (-1, none, rds) ∧
      ∃ r, r ∈ rds ∧ 4 + 1000 < r :=
  walk_reads_beyond_any_slack 1000

/-! ### String decoder claims -/

/-- A structure at 0x100 with an 8-byte fixed portion followed by the string
area encoding ["Acme", "Board-X"]: the bytes
`41 63 6d 65 00 42 6f 61 72 64 2d 58 00 00` starting at 0x108. -/
def memC8 : Nat → Nat := fun a =>
  if a = 0x100 then 1 else if a = 0x101 then 8
  else if a = 0x108 then 0x41 else if a = 0x109 then 0x63
  else if a = 0x10a then 0x6d else if a = 0x10b then 0x65
  else if a = 0x10d then 0x42 else if a = 0x10e then 0x6f
  else if a = 0x10f then 0x61 else if a = 0x110 then 0x72
  else if a = 0x111 then 0x64 else if a = 0x112 then 0x2d
  else if a = 0x113 then 0x58 else 0

/-- C8: on the structure whose string area encodes ["Acme", "Board-X"], index
1 returns the pointer to the NUL-terminated bytes of "Acme" (0x108), index 2
the pointer to "Board-X" (0x10d), and indices 0 and 3 return NULL. -/
theorem get_tstruct_string_roundtrip :
    get_tstruct_string memC8 0x100 1 20 = some (some 0x108) ∧
    get_tstruct_string memC8 0x100 2 20 = some (some 0x10d) ∧
    get_tstruct_string memC8 0x100 0 20 = some none ∧
    get_tstruct_string memC8 0x100 3 20 = some none ∧
    ((List.range 5).map fun i => memC8 (0x108 + i)) = [0x41, 0x63, 0x6d, 0x65, 0] ∧
    ((List.range 8).map fun i => memC8 (0x10d + i)) =
      [0x42, 0x6f, 0x61, 0x72, 0x64, 0x2d, 0x58, 0] := by
  decide

/-- The do-while body of `get_tstruct_string` only returns a string pointer
under the guard `!n && *a`, so the returned byte is never NUL. -/
lemma gts_loop_some_nonzero (mem : Nat → Nat) :
    ∀ (fuel a : Nat) (n : Int) (x : Nat),
      gts_loop mem a n fuel = some (some x) → mem x % 256 ≠ 0 := by
  intro fuel
  induction fuel with
  | zero => intro a n x h; simp [gts_loop] at h
  | succ fuel ih =>
      intro a n x h
      simp only [gts_loop] at h
      by_cases h1 : (if mem a % 256 = 0 then n - 1 else n) = 0 ∧ mem a % 256 ≠ 0
      · rw [if_pos h1] at h
        obtain ⟨rfl⟩ : a = x := by simpa using h
        exact h1.2
      · rw [if_neg h1] at h
        by_cases h2 : mem (a + 1) % 256 = 0 ∧ mem a % 256 = 0
        · rw [if_pos h2] at h; simp at h
        · rw [if_neg h2] at h; exact ih _ _ _ h

/-- C10: whenever `get_tstruct_string` returns a non-null pointer, the byte at
that pointer is non-zero — a successfully returned string is never empty. -/
theorem get_tstruct_string_nonempty (mem : Nat → Nat) (header : Nat) (n : Int)
    (fuel x : Nat) (h : get_tstruct_string mem header n fuel = some (some x)) :
    mem x % 256 ≠ 0 := by
  unfold get_tstruct_string at h
  by_cases hn : n < 1
  · rw [if_pos hn] at h; simp at h
  · rw [if_neg hn] at h
    exact gts_loop_some_nonzero mem fuel _ _ x h

/-- A one-string area for the C10 witness: header at 0 with fixed length 2,
string area `[65, 0, 0, ...]` at address 2. -/
def memW10 : Nat → Nat := fun a => if a ≤ 1 then 2 else if a = 2 then 65 else 0

/-- Witness for C10: on `memW10` index 1 resolves to address 2 and the byte
there is non-zero. -/
theorem get_tstruct_string_nonempty_witness : memW10 2 % 256 ≠ 0 :=
  get_tstruct_string_nonempty memW10 0 1 1 2 (by decide)

/-! ### Termination of the scans (C9) -/

/-- On memory with no NUL bytes, the walker's terminator scan never finishes,
whatever fuel it is given. -/
lemma scanDoubleNul_ones : ∀ (fuel a : Nat), scanDoubleNul (fun _ => 1) a fuel = none := by
  intro fuel
  induction fuel with
  | zero => intro a; rfl
  | succ fuel ih =>
      intro a
      simp only [scanDoubleNul]
      rw [if_neg (by norm_num)]
      exact ih (a + 1)

/-- On memory with no NUL bytes, the string decoder's do-while never finishes
when its counter is not already zero. -/
lemma gts_loop_ones : ∀ (fuel a : Nat) (n : Int), n ≠ 0 →
    gts_loop (fun _ => 1) a n fuel = none := by
  intro fuel
  induction fuel with
  | zero => intro a n _; rfl
  | succ fuel ih =>
      intro a n hn
      simp only [gts_loop]
      rw [if_neg (by norm_num; intro h; exact absurd h hn), if_neg (by norm_num)]
      exact ih (a + 1) n hn

/-- Counterexample to C9: on all-ones memory (no double NUL anywhere) neither
the structure walk (whose first terminator scan never ends) nor the string
decoder terminates within any fuel bound — these scans are not bounded by any
caller-supplied or table-declared count. -/
theorem smbios_scans_termination_counterexample :
    (∀ fuel : Nat, walk (fun _ => 1) 10 3 fuel 0 none 0 = none) ∧
    (∀ fuel : Nat, get_tstruct_string (fun _ => 1) 0 5 fuel = none) := by
  constructor
  · intro fuel
    show walkAux (fun _ => 1) 10 3 fuel (3 + 1 - 0) 0 none 0 = none
    simp only [walkAux]
    rw [if_pos (by norm_num)]
    simp [scanDoubleNul_ones]
  · intro fuel
    unfold get_tstruct_string
    rw [if_neg (by norm_num)]
    norm_num
    exact gts_loop_ones fuel 1 4 (by norm_num)

/-- The walker's terminator scan does finish, within `j + 1` steps, whenever a
double-NUL pair actually occurs `j` bytes ahead of the scan start. -/
lemma scanDoubleNul_bounded (mem : Nat → Nat) :
    ∀ (j a : Nat), mem (a + j) % 256 = 0 → mem (a + j + 1) % 256 = 0 →
    ∃ p, p ≤ a + j ∧ scanDoubleNul mem a (j + 1) = some p := by
  intro j
  induction j with
  | zero =>
      intro a h0 h1
      refine ⟨a, by omega, ?_⟩
      simp only [scanDoubleNul]
      rw [if_pos ⟨by simpa using h0, by simpa using h1⟩]
  | succ j ih =>
      intro a h0 h1
      by_cases hc : mem a % 256 = 0 ∧ mem (a + 1) % 256 = 0
      · exact ⟨a, by omega, by simp only [scanDoubleNul]; rw [if_pos hc]⟩
      · obtain ⟨p, hp, hs⟩ := ih (a + 1)
          (by rw [show a + 1 + j = a + (j + 1) from by omega]; exact h0)
          (by rw [show a + 1 + j + 1 = a + (j + 1) + 1 from by omega]; exact h1)
        refine ⟨p, by omega, ?_⟩
        show scanDoubleNul mem a (j + 1 + 1) = some p
        simp only [scanDoubleNul]
        rw [if_neg hc]
        exact hs

/-- The string decoder's do-while also finishes within `j + 1` steps (with
some outcome: a string pointer or NULL) whenever a double-NUL pair occurs
`j` bytes ahead. -/
lemma gts_loop_bounded (mem : Nat → Nat) :
    ∀ (j a : Nat) (n : Int), mem (a + j) % 256 = 0 → mem (a + j + 1) % 256 = 0 →
    ∃ r, gts_loop mem a n (j + 1) = some r := by
  intro j
  induction j with
  | zero =>
      intro a n h0 h1
      have ha : mem a % 256 = 0 := by simpa using h0
      have hb : mem (a + 1) % 256 = 0 := by simpa using h1
      refine ⟨none, ?_⟩
      simp only [gts_loop]
      rw [if_neg (by simp [ha]), if_pos ⟨hb, ha⟩]
  | succ j ih =>
      intro a n h0 h1
      by_cases hc1 : (if mem a % 256 = 0 then n - 1 else n) = 0 ∧ mem a % 256 ≠ 0
      · refine ⟨some a, ?_⟩
        show gts_loop mem a n (j + 1 + 1) = _
        simp only [gts_loop]
        rw [if_pos hc1]
      · by_cases hc2 : mem (a + 1) % 256 = 0 ∧ mem a % 256 = 0
        · refine ⟨none, ?_⟩
          show gts_loop mem a n (j + 1 + 1) = _
          simp only [gts_loop]
          rw [if_neg hc1, if_pos hc2]
        · obtain ⟨r, hr⟩ := ih (a + 1) (if mem a % 256 = 0 then n - 1 else n)
            (by rw [show a + 1 + j = a + (j + 1) from by omega]; exact h0)
            (by rw [show a + 1 + j + 1 = a + (j + 1) + 1 from by omega]; exact h1)
          refine ⟨r, ?_⟩
          show gts_loop mem a n (j + 1 + 1) = _
          simp only [gts_loop]
          rw [if_neg hc1, if_neg hc2]
          exact hr

/-- C9 (amended): the outer walk is bounded by the declared structure count
and the locator scans by their iteration counts, but the two byte-by-byte
terminator scans are bounded only by the data: they terminate, within `j + 1`
steps, exactly when a double-NUL pair occurs at some offset `j` from the scan
start — not because of any caller-supplied or table-declared count. -/
theorem smbios_scans_terminate_when_terminator_exists (mem : Nat → Nat)
    (a j : Nat) (n : Int) (h0 : mem (a + j) % 256 = 0)
    (h1 : mem (a + j + 1) % 256 = 0) :
    (∃ p, p ≤ a + j ∧ scanDoubleNul mem a (j + 1) = some p) ∧
    (∃ r, gts_loop mem a n (j + 1) = some r) :=
  ⟨scanDoubleNul_bounded mem j a h0 h1, gts_loop_bounded mem j a n h0 h1⟩

/-- Witness for the amended C9 on all-zero memory: the first double NUL is at
offset 0, and both scans finish in one step. -/
theorem smbios_scans_terminate_witness :
    (∃ p, p ≤ 0 + 0 ∧ scanDoubleNul (fun _ => 0) 0 (0 + 1) = some p) ∧
    (∃ r, gts_loop (fun _ => 0) 0 5 (0 + 1) = some r) :=
  smbios_scans_terminate_when_terminator_exists (fun _ => 0) 0 0 5 (by decide) (by decide)

/-! ### Concrete environments for the validator claims -/

/-- An environment with the given loader signature, mapper and memory; the
EFI overlays are inert (all zero), as in a legacy-BIOS boot. -/
def plainEnv (sig : Nat) (mr : Nat → Nat → Bool → Nat) (mem : Nat → Nat) : Env :=
  { loader_signature := sig, sys_tab := 0, sys_tab_hi := 0
    map_region := mr, mem := mem
    readSysTab32 := fun _ => ⟨0, 0⟩, readSysTab64 := fun _ => ⟨0, 0⟩
    readCfg32 := fun _ _ => ⟨⟨0, 0, 0, []⟩, 0⟩, readCfg64 := fun _ _ => ⟨⟨0, 0, 0, []⟩, 0⟩
    sizeof_sys32 := 0, sizeof_sys64 := 0, sizeof_cfg32 := 0, sizeof_cfg64 := 0 }

/-- An entry point at 0xF0000 whose bytes over its declared length 4 sum to
94 (mod 256) — a checksum the claim says must be rejected. Version 2.3, an
empty structure table at 0x2000. -/
def memC1 : Nat → Nat := fun a =>
  if a = 0xf0000 then 0x5f else if a = 0xf0001 then 0x53
  else if a = 0xf0002 then 0x4d else if a = 0xf0003 then 0x5f
  else if a = 0xf0005 then 4
  else if a = 0xf0006 then 2 else if a = 0xf0007 then 3
  else if a = 0xf0019 then 0x20
  else 0

def envC1 : Env := plainEnv 0 (fun _ _ _ => 0) memC1

/-- C1 (code bug): the checksum loop `for (; dmi < dmi_start + eps->length;
dmi++)` never initializes `dmi`, so the sum does not start at the entry
point. On `memC1` the 8-bit sum over the declared 4 bytes from the entry
point is 94 ≠ 0, so the claim demands rejection; yet when the stale cursor
`dmi0` happens to lie at or past `dmi_start + length` the loop sums nothing
and `smbios_init` accepts (returns 0). With the evidently intended
initialization `dmi0 = dmi_start` the same entry point is rejected. -/
theorem smbios_checksum_stale_cursor_bug :
    checksum memC1 0xf0000 (0xf0000 + eps_length memC1 0xf0000) = 94 ∧
    smbios_init envC1 0xf0004 1 none = some (0, none) ∧
    smbios_init envC1 0xf0000 1 none = some (-1, none) := by
  decide

/-- An entry point at 0xF0000 with a correct checksum over its declared
length 5 and version 1.3: `majorversion < 2` but `minorversion ≥ 3`. Empty
structure table at 0x2000. -/
def memC2 : Nat → Nat := fun a =>
  if a = 0xf0000 then 0x5f else if a = 0xf0001 then 0x53
  else if a = 0xf0002 then 0x4d else if a = 0xf0003 then 0x5f
  else if a = 0xf0004 then 0xa2 else if a = 0xf0005 then 5
  else if a = 0xf0006 then 1 else if a = 0xf0007 then 3
  else if a = 0xf0019 then 0x20
  else 0

def envC2 : Env := plainEnv 0 (fun _ _ _ => 0) memC2

/-- Counterexample to C2: an entry point with `majorversion = 1 < 2` (and
`minorversion = 3`) passes the version gate — `smbios_init` returns 0 — because
the code tests `majorversion < 2 && minorversion < 3`, not `majorversion < 2`
alone. -/
theorem smbios_version_gate_counterexample :
    eps_major memC2 0xf0000 = 1 ∧
    smbios_init envC2 0xf0000 1 none = some (0, none) := by
  decide

/-- C2 (amended): after a found address and a passing checksum, the version
gate rejects exactly when `majorversion < 2` AND `minorversion < 3`; any
entry point failing either comparison (in particular one with
`majorversion < 2` but `minorversion ≥ 3`) proceeds to the structure walk. -/
theorem smbios_version_gate_amended (env : Env) (dmi0 nulFuel : Nat) (si0 : Option Nat)
    (A : Nat) (hA : find_smbios_adr env = A) (hA0 : A ≠ 0)
    (hck : checksum env.mem dmi0 (A + eps_length env.mem A) = 0) :
    (eps_major env.mem A < 2 ∧ eps_minor env.mem A < 3 →
       smbios_init env dmi0 nulFuel si0 = some (-1, si0)) ∧
    (¬(eps_major env.mem A < 2 ∧ eps_minor env.mem A < 3) →
       smbios_init env dmi0 nulFuel si0 =
         (walk env.mem (eps_tableaddress env.mem A + eps_tablelength env.mem A)
            (eps_numstructs env.mem A) nulFuel (eps_tableaddress env.mem A) si0 0).map
           (fun t => (t.1, t.2.1))) := by
  constructor <;> intro hg
  · simp [smbios_init, hA, hA0, hck, hg]
  · simp [smbios_init, hA, hA0, hck, hg]

/-- Like `memC2` but version 1.2, which the gate does reject. -/
def memC2r : Nat → Nat := fun a =>
  if a = 0xf0000 then 0x5f else if a = 0xf0001 then 0x53
  else if a = 0xf0002 then 0x4d else if a = 0xf0003 then 0x5f
  else if a = 0xf0004 then 0xa2 else if a = 0xf0005 then 5
  else if a = 0xf0006 then 1 else if a = 0xf0007 then 2
  else if a = 0xf0019 then 0x20
  else 0

def envC2r : Env := plainEnv 0 (fun _ _ _ => 0) memC2r

/-- Witness for the amended C2: version 1.2 (both comparisons true) is
rejected. -/
theorem smbios_version_gate_amended_witness :
    smbios_init envC2r 0xf0000 1 none = some (-1, none) :=
  (smbios_version_gate_amended envC2r 0xf0000 1 none 0xf0000
    (by decide) (by decide) (by decide)).1 (by decide)

/-- A valid entry point (checksum over length 5, version 2.3) whose structure
table at 0x2000 declares `tablelength = 6` and `numstructs = 0` but contains a
type-2 structure: the walk records the structure, then aborts on the count
guard. -/
def memC7 : Nat → Nat := fun a =>
  if a = 0xf0000 then 0x5f else if a = 0xf0001 then 0x53
  else if a = 0xf0002 then 0x4d else if a = 0xf0003 then 0x5f
  else if a = 0xf0004 then 0xa2 else if a = 0xf0005 then 5
  else if a = 0xf0006 then 2 else if a = 0xf0007 then 3
  else if a = 0xf0016 then 6
  else if a = 0xf0019 then 0x20
  else if a = 0x2000 then 2 else if a = 0x2001 then 4
  else 0

def envC7 : Env := plainEnv 0 (fun _ _ _ => 0) memC7

/-- Counterexample to C7: `smbios_init` fails (returns -1, via the
processed-count guard), yet the global record pointer has been set to the
type-2 structure at 0x2000 seen before the abort — a partial result is
surfaced on failure. -/
theorem smbios_abort_surfaces_pointer_counterexample :
    smbios_init envC7 0xf0000 2 none = some (-1, some 0x2000) ∧
    memC7 0x2000 % 256 = 2 := by
  decide

/-- C7 (amended): every failure that precedes the structure walk — locator
returned 0, checksum mismatch, version gate — leaves the system-information
pointer unchanged; only a walk aborted by the count guard can surface a
partial result (see the counterexample). -/
theorem smbios_prewalk_failure_preserves_pointer (env : Env) (dmi0 nulFuel : Nat)
    (si0 : Option Nat) :
    (find_smbios_adr env = 0 → smbios_init env dmi0 nulFuel si0 = some (-1, si0)) ∧
    (∀ A, find_smbios_adr env = A → A ≠ 0 →
       checksum env.mem dmi0 (A + eps_length env.mem A) ≠ 0 →
       smbios_init env dmi0 nulFuel si0 = some (-1, si0)) ∧
    (∀ A, find_smbios_adr env = A → A ≠ 0 →
       checksum env.mem dmi0 (A + eps_length env.mem A) = 0 →
       eps_major env.mem A < 2 → eps_minor env.mem A < 3 →
       smbios_init env dmi0 nulFuel si0 = some (-1, si0)) := by
  refine ⟨?_, ?_, ?_⟩
  · intro h; simp [smbios_init, h]
  · intro A hA hA0 hck; simp [smbios_init, hA, hA0, hck]
  · intro A hA hA0 hck h2 h3; simp [smbios_init, hA, hA0, hck, h2, h3]

/-- A bare anchor at 0xF0000 with declared length 0 and version 0.0: checksum
passes vacuously and the version gate rejects. -/
def memC7w : Nat → Nat := fun a =>
  if a = 0xf0000 then 0x5f else if a = 0xf0001 then 0x53
  else if a = 0xf0002 then 0x4d else if a = 0xf0003 then 0x5f else 0

def envC7w : Env := plainEnv 0 (fun _ _ _ => 0) memC7w

/-- Witness for the amended C7: a version-gate failure returns -1 with the
pointer still `none`. -/
theorem smbios_prewalk_failure_preserves_pointer_witness :
    smbios_init envC7w 0xf0000 1 none = some (-1, none) :=
  (smbios_prewalk_failure_preserves_pointer envC7w 0xf0000 1 none).2.2 0xf0000
    (by decide) (by decide) (by decide) (by decide) (by decide)

/-! ### Locator claims -/

/-- Memory whose only `_SM_` anchor is at 0xF0000. -/
def memC3 : Nat → Nat := fun a =>
  if a = 0xf0000 then 0x5f else if a = 0xf0001 then 0x53
  else if a = 0xf0002 then 0x4d else if a = 0xf0003 then 0x5f else 0

/-- An EFI32 boot whose region mappings all fail. -/
def envC3 : Env := plainEnv EFI32_LOADER_SIGNATURE (fun _ _ _ => 0) memC3

/-- Counterexample to C3: with a recognized 32-bit EFI loader signature and
every region mapping failing, the locator does not return 0 — it falls
through to the legacy BIOS scan and returns the anchor it finds at 0xF0000. -/
theorem find_smbios_adr_efi_fallback_counterexample :
    envC3.loader_signature = EFI32_LOADER_SIGNATURE ∧
    (∀ a l e, envC3.map_region a l e = 0) ∧
    find_smbios_adr envC3 = 0xf0000 ∧ (0xf0000 : Nat) ≠ 0 := by
  refine ⟨rfl, fun a l e => rfl, by decide, by decide⟩

/-- C3 (amended): with a recognized EFI loader signature, when the
system-table mapping chain succeeds the locator returns the EFI
configuration-table lookup result (possibly 0) and never runs the legacy
scan; but when the system-table mapping yields 0 the locator falls through to
the legacy BIOS scan — there IS a fallback after a failed EFI mapping. -/
theorem find_smbios_adr_efi_precedence_amended (env : Env) :
    (env.loader_signature = EFI32_LOADER_SIGNATURE →
       (env.map_region (env.map_region env.sys_tab env.sizeof_sys32 true) env.sizeof_sys32 true = 0 →
          find_smbios_adr env = bios_scan env.mem) ∧
       (env.map_region (env.map_region env.sys_tab env.sizeof_sys32 true) env.sizeof_sys32 true ≠ 0 →
          find_smbios_adr env = find_smbios_in_efi32_system_table env
            (env.readSysTab32
              (env.map_region (env.map_region env.sys_tab env.sizeof_sys32 true) env.sizeof_sys32 true)))) ∧
    (env.loader_signature = EFI64_LOADER_SIGNATURE →
       (env.map_region (env.sys_tab_hi * 2 ^ 32 + env.sys_tab) env.sizeof_sys64 true = 0 →
          find_smbios_adr env = bios_scan env.mem) ∧
       (env.map_region (env.sys_tab_hi * 2 ^ 32 + env.sys_tab) env.sizeof_sys64 true ≠ 0 →
          find_smbios_adr env = find_smbios_in_efi64_system_table env
            (env.readSysTab64
              (env.map_region (env.sys_tab_hi * 2 ^ 32 + env.sys_tab) env.sizeof_sys64 true)))) := by
  constructor
  · intro h32
    have hne : env.loader_signature ≠ EFI64_LOADER_SIGNATURE := by
      rw [h32]; decide
    constructor
    · intro hm
      simp [find_smbios_adr, h32, hne, hm, EFI32_LOADER_SIGNATURE, EFI64_LOADER_SIGNATURE]
    · intro hm; simp [find_smbios_adr, h32, hm]
  · intro h64
    have hne : env.loader_signature ≠ EFI32_LOADER_SIGNATURE := by
      rw [h64]; decide
    constructor
    · intro hm
      norm_num at hm
      simp [find_smbios_adr, hne, h64, hm, EFI32_LOADER_SIGNATURE, EFI64_LOADER_SIGNATURE]
    · intro hm
      norm_num at hm
      simp [find_smbios_adr, hne, h64, hm, EFI32_LOADER_SIGNATURE, EFI64_LOADER_SIGNATURE]

/-- EFI32 boot, failing mapper, blank memory, for the amended-C3 witness. -/
def envC3w : Env := plainEnv EFI32_LOADER_SIGNATURE (fun _ _ _ => 0) (fun _ => 0)

/-- Witness for the amended C3: a failed EFI32 system-table mapping sends the
locator to the legacy BIOS scan. -/
theorem find_smbios_adr_efi_precedence_amended_witness :
    find_smbios_adr envC3w = bios_scan envC3w.mem :=
  ((find_smbios_adr_efi_precedence_amended envC3w).1 rfl).1 rfl

/-- First-match characterization of the legacy scan loop. -/
lemma bios_scan_from_found (mem : Nat → Nat) :
    ∀ (j k a : Nat), j < k → isAnchor mem (a + 16 * j) = true →
      (∀ i, i < j → isAnchor mem (a + 16 * i) = false) →
      bios_scan_from mem a k = a + 16 * j := by
  intro j
  induction j with
  | zero =>
      intro k a hk ha _
      obtain ⟨k, rfl⟩ : ∃ m, k = m + 1 := ⟨k - 1, by omega⟩
      rw [show a + 16 * 0 = a from by omega] at ha
      simp [bios_scan_from, ha]
  | succ j ih =>
      intro k a hk ha hmin
      obtain ⟨k, rfl⟩ : ∃ m, k = m + 1 := ⟨k - 1, by omega⟩
      have h0 : isAnchor mem a = false := by simpa using hmin 0 (by omega)
      simp only [bios_scan_from, h0, Bool.false_eq_true, if_false]
      have hrec := ih k (a + 16) (by omega)
        (by rw [show a + 16 + 16 * j = a + 16 * (j + 1) from by ring]; exact ha)
        (fun i hi => by
          rw [show a + 16 + 16 * i = a + 16 * (i + 1) from by ring]
          exact hmin (i + 1) (by omega))
      rw [hrec]; ring

/-- Exhaustion characterization of the legacy scan loop. -/
lemma bios_scan_from_none (mem : Nat → Nat) :
    ∀ (k a : Nat), (∀ j, j < k → isAnchor mem (a + 16 * j) = false) →
      bios_scan_from mem a k = 0 := by
  intro k
  induction k with
  | zero => intro a _; rfl
  | succ k ih =>
      intro a h
      have h0 : isAnchor mem a = false := by simpa using h 0 (by omega)
      simp only [bios_scan_from, h0, Bool.false_eq_true, if_false]
      exact ih (a + 16) (fun j hj => by
        rw [show a + 16 + 16 * j = a + 16 * (j + 1) from by ring]
        exact h (j + 1) (by omega))

/-- C4 (amended): without a recognized EFI signature the locator performs the
legacy scan over the 16-byte-stepped addresses `0xF0000 + 16*k` for
`k < 0xffff` — i.e. up to (but not including) `0xF0000 + 0xFFFF0`, far beyond
0xFFFFF: it returns 0 exactly when no stepped position in THAT range carries
the anchor, and otherwise the first (lowest) anchor position. -/
theorem find_smbios_adr_bios_scan_amended (env : Env)
    (h32 : env.loader_signature ≠ EFI32_LOADER_SIGNATURE)
    (h64 : env.loader_signature ≠ EFI64_LOADER_SIGNATURE) :
    (find_smbios_adr env = 0 ↔
      ∀ k, k < 0xffff → isAnchor env.mem (0xf0000 + 16 * k) = false) ∧
    (∀ k, k < 0xffff → isAnchor env.mem (0xf0000 + 16 * k) = true →
      (∀ j, j < k → isAnchor env.mem (0xf0000 + 16 * j) = false) →
      find_smbios_adr env = 0xf0000 + 16 * k) := by
  have hb : find_smbios_adr env = bios_scan env.mem := by
    simp [find_smbios_adr, h32, h64]
  refine ⟨⟨?_, ?_⟩, ?_⟩
  · intro h0 k hk
    by_contra hka
    have hka2 : isAnchor env.mem (0xf0000 + 16 * k) = true := by
      cases hcase : isAnchor env.mem (0xf0000 + 16 * k)
      · exact absurd hcase hka
      · rfl
    have hex : ∃ j, isAnchor env.mem (0xf0000 + 16 * j) = true := ⟨k, hka2⟩
    have hle : Nat.find hex ≤ k := Nat.find_le hka2
    have hfound : bios_scan_from env.mem 0xf0000 0xffff = 0xf0000 + 16 * Nat.find hex :=
      bios_scan_from_found env.mem (Nat.find hex) 0xffff 0xf0000 (by omega)
        (Nat.find_spec hex)
        (fun i hi => by
          have hni := Nat.find_min hex hi
          cases hcase : isAnchor env.mem (0xf0000 + 16 * i)
          · rfl
          · exact absurd hcase hni)
    rw [hb] at h0
    rw [show bios_scan env.mem = bios_scan_from env.mem 0xf0000 0xffff from rfl, hfound] at h0
    omega
  · intro hall
    rw [hb]
    exact bios_scan_from_none env.mem 0xffff 0xf0000 hall
  · intro k hk ha hmin
    rw [hb]
    exact bios_scan_from_found env.mem k 0xffff 0xf0000 hk ha hmin

/-- Memory with no anchor anywhere in the claimed window 0xF0000-0xFFFFF, and
an anchor at 0x10FE30 (offset 0x1FE30 from the scan start). -/
def memC4 : Nat → Nat := fun a =>
  if a < 0x10fe30 then 0
  else if a = 0x10fe30 then 0x5f else if a = 0x10fe31 then 0x53
  else if a = 0x10fe32 then 0x4d else if a = 0x10fe33 then 0x5f else 0

def envC4 : Env := plainEnv 0 (fun _ _ _ => 0) memC4

lemma isAnchor_memC4_low (x : Nat) (hx : x < 0x10fe30) : isAnchor memC4 x = false := by
  have h0 : memC4 x = 0 := by simp [memC4, hx]
  simp [isAnchor, h0]

/-- Counterexample to C4: the legacy scan does not stop at 0xFFFFF. On
`memC4` no 16-byte-aligned position in the claimed range 0xF0000-0xFFFFF
carries the anchor (so the claim demands a 0 result), yet the locator
examines addresses beyond that range and returns 0x10FE30. -/
theorem find_smbios_adr_bios_range_counterexample :
    find_smbios_adr envC4 = 0x10fe30 ∧
    (0xfffff : Nat) < 0x10fe30 ∧
    (∀ k, k ≤ 0xfff → isAnchor memC4 (0xf0000 + 16 * k) = false) := by
  refine ⟨?_, by norm_num, fun k hk => isAnchor_memC4_low _ (by omega)⟩
  have hb : find_smbios_adr envC4 = bios_scan_from memC4 0xf0000 0xffff := by
    simp [find_smbios_adr, envC4, plainEnv, EFI32_LOADER_SIGNATURE, EFI64_LOADER_SIGNATURE,
      bios_scan]
  rw [hb]
  have hf := bios_scan_from_found memC4 0x1fe3 0xffff 0xf0000 (by norm_num)
    (by decide) (fun i hi => isAnchor_memC4_low _ (by omega))
  rw [hf]

/-- A single anchor right at the scan start, for the amended-C4 witness. -/
def memW4 : Nat → Nat := fun a =>
  if a = 0xf0000 then 0x5f else if a = 0xf0001 then 0x53
  else if a = 0xf0002 then 0x4d else if a = 0xf0003 then 0x5f else 0

def envW4 : Env := plainEnv 0 (fun _ _ _ => 0) memW4

/-- Witness for the amended C4: the anchor at step 0 is returned. -/
theorem find_smbios_adr_bios_scan_amended_witness :
    find_smbios_adr envW4 = 0xf0000 + 16 * 0 :=
  (find_smbios_adr_bios_scan_amended envW4 (by decide) (by decide)).2 0
    (by decide) (by decide) (fun j hj => absurd hj (Nat.not_lt_zero j))

end Smbios
